import Mathlib

/-
Verification of the two scripts of the `absolute` repository:
a Travis-CI lint reporter (`travis_lint.js`) and an Express server
bootstrap. JavaScript strings are modelled as `List Char`; possibly
undefined values (environment variables, missing array elements) as
`Option`; a thrown, uncaught JavaScript error as `Except.error`.
Console output is modelled as the list of printed lines; the external
colorizing library wraps text in ANSI codes and is treated as the
identity on the text, per the black-box treatment of external
libraries.
-/

namespace Absolute

/-- A JavaScript string, modelled as its list of characters. -/
abbrev JSStr := List Char

/-- JavaScript number-to-string coercion for the naturals used here. -/
def natToJSStr (n : Nat) : JSStr := (Nat.repr n).toList

/-- String conversion applied by JavaScript `+` to a possibly undefined
value: `undefined` coerces to the text "undefined". -/
def jsUndef : Option JSStr → JSStr
  | none => "undefined".toList
  | some s => s

/-- JavaScript falsiness of a string-or-undefined-or-null value, as
tested by `if (!sha)`: `undefined`, `null` and the empty string are
falsy. -/
def jsFalsy : Option JSStr → Bool
  | none => true
  | some s => s.isEmpty

/-- JavaScript `String.prototype.split` specialised to the separator
`"..."`, as in `travisCommitRange.split('...')` (travis_lint.js:181):
scan left to right; each occurrence of three consecutive dots ends the
current segment and starts the next. -/
def splitDots : JSStr → List JSStr
  | [] => [[]]
  | '.' :: '.' :: '.' :: rest => [] :: splitDots rest
  | c :: cs =>
    match splitDots cs with
    | [] => [[c]]
    | t :: ts => (c :: t) :: ts

/-- JavaScript `String.prototype.split` specialised to the separator
`"/"`, as in `travisSlug.split('/')` (travis_lint.js:124). -/
def splitSlash : JSStr → List JSStr
  | [] => [[]]
  | '/' :: rest => [] :: splitSlash rest
  | c :: cs =>
    match splitSlash cs with
    | [] => [[c]]
    | t :: ts => (c :: t) :: ts

/-- Spec-side reading of "the substring of the range after the `...`
delimiter": the suffix following the first occurrence of three
consecutive dots, or `none` when no occurrence exists. Stated from the
spec's words for comparison with the code's `split('...')[1]`. -/
def suffixAfterDots : JSStr → Option JSStr
  | [] => none
  | '.' :: '.' :: '.' :: rest => some rest
  | _ :: cs => suffixAfterDots cs

/-- The Travis environment variables the script reads; `none` models an
unset (undefined) variable. -/
structure Env where
  TRAVIS_REPO_SLUG : Option JSStr
  TRAVIS_JOB_ID : Option JSStr
  TRAVIS_EVENT_TYPE : Option JSStr
  TRAVIS_COMMIT : Option JSStr
  TRAVIS_COMMIT_RANGE : Option JSStr
deriving DecidableEq, Repr

/-- One entry of a file result's `messages` array in the ESLint report:
severity (2 = error, otherwise warning as far as the script is
concerned), line number, message text and rule identifier. -/
structure LintMessage where
  severity : Nat
  line : Nat
  message : JSStr
  ruleId : JSStr
deriving DecidableEq, Repr

/-- One element of `report.results`: the ESLint result for one file. -/
structure FileResult where
  filePath : JSStr
  errorCount : Nat
  warningCount : Nat
  messages : List LintMessage
deriving DecidableEq, Repr

/-- The ESLint report consumed by the script: per-file results plus
aggregate error and warning counts. -/
structure Report where
  results : List FileResult
  errorCount : Nat
  warningCount : Nat
deriving DecidableEq, Repr

/-- The status payload object built in `updateStatus`
(travis_lint.js:136-144) and handed to `sendToGitHub`: exactly the
seven fields of the object literal `{user, repo, sha, state,
target_url, description, context}`. `repo` is `parsedSlug[1]`, which
is undefined when the slug has no slash, hence an `Option`. -/
structure Details where
  user : JSStr
  repo : Option JSStr
  sha : JSStr
  state : JSStr
  target_url : JSStr
  description : JSStr
  context : JSStr
deriving DecidableEq, Repr

/-- Observable outcome of `updateStatus` when no error is thrown:
either it logged and skipped the network call, or it sent exactly one
status payload to GitHub. -/
inductive UpdateOutcome where
  | skipped : UpdateOutcome
  | sent : Details → UpdateOutcome
deriving DecidableEq, Repr

/-- The list of status payloads handed to `sendToGitHub` for a given
outcome: none on the skip path, exactly the one constructed payload on
the send path. -/
def sentDetails : UpdateOutcome → List Details
  | .skipped => []
  | .sent d => [d]

/-- Translation of `getCommitTarget` (travis_lint.js:175-193).
For a push event it returns `TRAVIS_COMMIT` (possibly undefined); for
a pull request it splits `TRAVIS_COMMIT_RANGE` on `'...'` and takes
the whole range when the split has one segment, else element 1 —
throwing a TypeError (`Except.error`) when the range variable is
unset; for any other event it logs and returns null (`none`). -/
def getCommitTarget (env : Env) (eventType : Option JSStr) : Except Unit (Option JSStr) :=
  if eventType = some ("push".toList) then
    .ok env.TRAVIS_COMMIT
  else if eventType = some ("pull_request".toList) then
    match env.TRAVIS_COMMIT_RANGE with
    | none => .error ()
    | some travisCommitRange =>
      let parsed := splitDots travisCommitRange
      if parsed.length = 1 then
        .ok (some travisCommitRange)
      else
        .ok (some (parsed.getD 1 []))
  else
    .ok none

/-- Translation of the payload construction block of `updateStatus`
(travis_lint.js:124-144), reached once the sha is truthy and
`travisSlug` is defined. -/
def buildDetails (env : Env) (slug sha : JSStr) (report : Report) : Details :=
  let parsedSlug := splitSlash slug
  let user := parsedSlug.getD 0 []
  let repo := parsedSlug.get? 1
  let target_url := "https://travis-ci.org/".toList ++ slug ++ "/jobs/".toList ++ jsUndef env.TRAVIS_JOB_ID
  let state := if report.errorCount = 0 then "success".toList else "failure".toList
  let description := "errors: ".toList ++ natToJSStr report.errorCount ++ ", warnings: ".toList ++ natToJSStr report.warningCount
  let type := if env.TRAVIS_EVENT_TYPE = some ("pull_request".toList) then "pr".toList else jsUndef env.TRAVIS_EVENT_TYPE
  let context := "ci/lint/".toList ++ type
  ⟨user, repo, sha, state, target_url, description, context⟩

/-- Translation of `updateStatus` (travis_lint.js:112-148): compute the
commit target (propagating a thrown error), skip with a log message
when it is falsy, otherwise split the slug — a TypeError when
`TRAVIS_REPO_SLUG` is unset — build the payload and send it. -/
def updateStatus (env : Env) (report : Report) : Except Unit UpdateOutcome :=
  match getCommitTarget env env.TRAVIS_EVENT_TYPE with
  | .error e => .error e
  | .ok sha =>
    if jsFalsy sha then
      .ok .skipped
    else
      match env.TRAVIS_REPO_SLUG with
      | none => .error ()
      | some slug => .ok (.sent (buildDetails env slug (sha.getD []) report))

/-- Console formatting of one lint message (travis_lint.js:75-79):
`console.log` joins its arguments with single spaces; the severity
decides the padded type label and its color. -/
def formatMessage (message : LintMessage) : JSStr :=
  let type := if message.severity = 2 then "error  ".toList else "warning".toList
  "  ".toList ++ ' ' :: type ++ ' ' :: natToJSStr message.line ++ ' ' :: message.message ++ ' ' :: message.ruleId

/-- Translation of `printFileResult` (travis_lint.js:55-85): the file
path, then either the literal "no issues" when the messages array is
empty or one formatted line per message, then a blank separator line. -/
def printFileResult (result : FileResult) : List JSStr :=
  [result.filePath] ++
  (if result.messages.length = 0 then
    ["no issues".toList]
  else
    result.messages.map formatMessage) ++
  [[]]

/-- Translation of `printReportFooter` (travis_lint.js:91-105). -/
def printReportFooter (report : Report) : List JSStr :=
  if report.errorCount ≠ 0 then
    [natToJSStr (report.errorCount + report.warningCount) ++ " problems (".toList ++ natToJSStr report.errorCount ++ " errors, ".toList ++ natToJSStr report.warningCount ++ " warnings)".toList]
  else if report.warningCount ≠ 0 then
    [natToJSStr report.warningCount ++ " warnings".toList]
  else
    ["no lint issues!".toList]

/-- Condition of the guard in `printReport`'s loop
(travis_lint.js:40-41). -/
def hasIssues (result : FileResult) : Bool :=
  result.errorCount != 0 || result.warningCount != 0

/-- Translation of `printReport` (travis_lint.js:31-49): the header,
`printFileResult` for each file result passing the nonzero-count
guard, then the footer. -/
def printReport (report : Report) : List JSStr :=
  ["-- begin ESLint report --\n".toList] ++
  (report.results.flatMap fun result => if hasIssues result then printFileResult result else []) ++
  printReportFooter report

/-! Model of the server bootstrap file (the unnamed source file): an
Express app accumulates middleware registrations in order, then the
two external startup modules are called. The external `path.join`,
`express.static` and `body-parser` implementations are black boxes;
each middleware constructor records the arguments passed to them. -/

/-- One `app.use(...)` registration of the bootstrap file, recording
the arguments of the external middleware factory it wraps:
`express.static(path.join(__dirname, '../client'))`,
`bodyParser.json({limit: '10mb'})`, and
`bodyParser.urlencoded({limit: '10mb', extended: true})`. -/
inductive Middleware where
  | staticFiles (joinBase joinRel : JSStr)
  | jsonParser (limit : JSStr)
  | urlencodedParser (limit : JSStr) ( extended : Bool)
deriving DecidableEq, Repr

/-- The Express app value: the list of middlewares attached so far, in
registration order. -/
structure App where
  middlewares : List Middleware
deriving DecidableEq, Repr

/-- A call to one of the two external startup modules,
`httpsServer.run(app, config.serverInfo)` or
`redirectServer.runForHttps(config.serverInfo)`, recording its
arguments. -/
inductive ServerCall (α : Type) where
  | httpsRun (app : App) (info : α)
  | redirectRunForHttps (info : α)

/-- Translation of the bootstrap file: build the app, attach the three
middlewares in source order, then perform the two startup calls in
source order. `dirname` stands for `__dirname` and `serverInfo` for
`config.serverInfo`, both opaque inputs. Returns the final app
together with the list of external startup calls made. -/
def serverBootstrap {α : Type} (dirname : JSStr) (serverInfo : α) : App × List (ServerCall α) :=
  let app : App := ⟨[]⟩
  let app : App := ⟨app.middlewares ++ [.staticFiles dirname ("../client".toList)]⟩
  let app : App := ⟨app.middlewares ++ [.jsonParser ("10mb".toList)]⟩
  let app : App := ⟨app.middlewares ++ [.urlencodedParser ("10mb".toList) true]⟩
  (app, [.httpsRun app serverInfo, .redirectRunForHttps serverInfo])

/-! Concrete fixtures used by witness and counterexample theorems. -/

/-- Environment with a pull-request commit range containing the
delimiter twice. -/
def envC1 : Env := ⟨none, none, some ("pull_request".toList), none, some ("a...b...c".toList)⟩

/-- Environment with a pull-request commit range containing the
delimiter once. -/
def envC1b : Env := ⟨none, none, some ("pull_request".toList), none, some ("a...b".toList)⟩

/-- Environment of a push event with slug, job, and commit set. -/
def envPush : Env := ⟨some ("a/b".toList), some ("1".toList), some ("push".toList), some ("abc".toList), none⟩

/-- Environment of an unsupported (cron) event. -/
def envCron : Env := ⟨some ("a/b".toList), none, some ("cron".toList), some ("abc".toList), none⟩

/-- Environment of a pull-request event with the commit range unset. -/
def envPRNoRange : Env := ⟨some ("a/b".toList), none, some ("pull_request".toList), none, none⟩

/-- Environment of a push event with the repository slug unset. -/
def envNoSlug : Env := ⟨none, none, some ("push".toList), some ("abc".toList), none⟩

/-- Report with no errors and five warnings. -/
def reportW5 : Report := ⟨[], 0, 5⟩

/-- Report with no errors and no warnings. -/
def reportW0 : Report := ⟨[], 0, 0⟩

/-- Report with two errors and one warning. -/
def reportE2W1 : Report := ⟨[], 2, 1⟩

/-- The payload `updateStatus` builds for `envPush` and `reportW5`. -/
def detailsW5 : Details :=
  ⟨"a".toList, some ("b".toList), "abc".toList, "success".toList,
   "https://travis-ci.org/a/b/jobs/1".toList, "errors: 0, warnings: 5".toList,
   "ci/lint/push".toList⟩

/-- The payload `updateStatus` builds for `envPush` and `reportW0`. -/
def detailsW0 : Details :=
  ⟨"a".toList, some ("b".toList), "abc".toList, "success".toList,
   "https://travis-ci.org/a/b/jobs/1".toList, "errors: 0, warnings: 0".toList,
   "ci/lint/push".toList⟩

/-- A file result with one error message. -/
def fileResW : FileResult := ⟨"f.js".toList, 1, 0, [⟨2, 3, "msg".toList, "rule".toList⟩]⟩

/-- A report holding `fileResW`. -/
def reportFW : Report := ⟨[fileResW], 1, 0⟩

/-! Lemmas about the two specialised split functions. -/

lemma suffixAfterDots_cons (c : Char) (cs : JSStr)
    (h : ∀ rest, c = '.' → cs = '.' :: '.' :: rest → False) :
    suffixAfterDots (c :: cs) = suffixAfterDots cs := by
  rw [suffixAfterDots.eq_def]
  split
  · simp_all
  · next rest heq =>
    injection heq with hc hcs
    exact (h rest hc hcs).elim
  · next c' cs' heq =>
    injection heq with h1 h2
    rw [h2]

lemma splitDots_cons (c : Char) (cs : JSStr)
    (h : ∀ rest, c = '.' → cs = '.' :: '.' :: rest → False) :
    splitDots (c :: cs) =
      match splitDots cs with
      | [] => [[c]]
      | t :: ts => (c :: t) :: ts := by
  rw [splitDots.eq_def]
  split
  · simp_all
  · next rest heq =>
    injection heq with hc hcs
    exact (h rest hc hcs).elim
  · next c' cs' heq =>
    injection heq with h1 h2
    rw [h1, h2]

lemma splitDots_ne_nil (s : JSStr) : splitDots s ≠ [] := by
  induction s using splitDots.induct with
  | case1 => simp [splitDots]
  | case2 rest ih => simp [splitDots]
  | case3 c cs h1 h2 ih => simp only [splitDots]; split <;> simp_all
  | case4 c cs h1 t ts hts ih => simp only [splitDots]; split <;> simp_all

/-- Relation between the code's `split('...')` and the spec's
"substring after the delimiter": with no occurrence the split is the
singleton of the whole string; with a first occurrence followed by the
suffix `t`, the split is one leading segment followed by the split of
`t`. -/
lemma splitDots_spec (s : JSStr) :
    (suffixAfterDots s = none → splitDots s = [s]) ∧
    (∀ t, suffixAfterDots s = some t → ∃ p, splitDots s = p :: splitDots t) := by
  induction s using splitDots.induct with
  | case1 => simp [splitDots, suffixAfterDots]
  | case2 rest ih =>
    constructor
    · intro h; simp [suffixAfterDots] at h
    · intro t ht
      simp only [suffixAfterDots, Option.some.injEq] at ht
      exact ⟨[], by rw [ht]; simp [splitDots]⟩
  | case3 c cs h1 h2 ih => exact absurd h2 (splitDots_ne_nil cs)
  | case4 c cs h1 t ts hts ih =>
    rw [suffixAfterDots_cons c cs h1, splitDots_cons c cs h1]
    constructor
    · intro h
      rw [ih.1 h]
    · intro u hu
      obtain ⟨p, hp⟩ := ih.2 u hu
      rw [hp]
      exact ⟨c :: p, rfl⟩

lemma splitDots_length_one_iff (s : JSStr) :
    (splitDots s).length = 1 ↔ suffixAfterDots s = none := by
  constructor
  · intro h
    cases hs : suffixAfterDots s with
    | none => rfl
    | some t =>
      obtain ⟨p, hp⟩ := (splitDots_spec s).2 t hs
      rw [hp] at h
      simp at h
      exact absurd h (splitDots_ne_nil t)
  · intro h
    rw [(splitDots_spec s).1 h]
    rfl

lemma splitDots_getD_one (s t : JSStr) (h : suffixAfterDots s = some t)
    (ht : suffixAfterDots t = none) :
    (splitDots s).getD 1 [] = t := by
  obtain ⟨p, hp⟩ := (splitDots_spec s).2 t h
  rw [hp, (splitDots_spec t).1 ht]
  rfl

lemma splitSlash_cons (c : Char) (cs : JSStr) (h : ¬ c = '/') :
    splitSlash (c :: cs) =
      match splitSlash cs with
      | [] => [[c]]
      | t :: ts => (c :: t) :: ts := by
  rw [splitSlash.eq_def]
  split
  · simp_all
  · next rest heq =>
    injection heq with hc hcs
    exact (h hc).elim
  · next c' cs' heq =>
    injection heq with h1 h2
    rw [h1, h2]

lemma splitSlash_no_slash (b : JSStr) (hb : '/' ∉ b) : splitSlash b = [b] := by
  induction b with
  | nil => rfl
  | cons c cs ih =>
    have hc : ¬ c = '/' := fun hh => hb (hh ▸ List.mem_cons_self c cs)
    rw [splitSlash_cons c cs hc, ih (fun hm => hb (List.mem_cons_of_mem c hm))]

lemma splitSlash_append (a b : JSStr) (ha : '/' ∉ a) :
    splitSlash (a ++ '/' :: b) = a :: splitSlash b := by
  induction a with
  | nil => simp [splitSlash]
  | cons c a' ih =>
    have hc : ¬ c = '/' := fun hh => ha (hh ▸ List.mem_cons_self c a')
    rw [List.cons_append, splitSlash_cons c _ hc, ih (fun hm => ha (List.mem_cons_of_mem c hm))]

/-- Splitting a well-formed slug "owner/repo" on the slash yields the
owner segment and the repository segment. -/
lemma splitSlash_pair (a b : JSStr) (ha : '/' ∉ a) (hb : '/' ∉ b) :
    splitSlash (a ++ '/' :: b) = [a, b] := by
  rw [splitSlash_append a b ha, splitSlash_no_slash b hb]

/-! Lemmas about `updateStatus` and the payload construction. -/

lemma buildDetails_user (env : Env) (slug sha : JSStr) (report : Report) :
    (buildDetails env slug sha report).user = (splitSlash slug).getD 0 [] := rfl

lemma buildDetails_repo (env : Env) (slug sha : JSStr) (report : Report) :
    (buildDetails env slug sha report).repo = (splitSlash slug).get? 1 := rfl

lemma buildDetails_sha (env : Env) (slug sha : JSStr) (report : Report) :
    (buildDetails env slug sha report).sha = sha := rfl

lemma buildDetails_state (env : Env) (slug sha : JSStr) (report : Report) :
    (buildDetails env slug sha report).state =
      (if report.errorCount = 0 then "success".toList else "failure".toList) := rfl

lemma buildDetails_context (env : Env) (slug sha : JSStr) (report : Report) :
    (buildDetails env slug sha report).context =
      "ci/lint/".toList ++
        (if env.TRAVIS_EVENT_TYPE = some ("pull_request".toList) then "pr".toList
         else jsUndef env.TRAVIS_EVENT_TYPE) := rfl

/-- Inversion of the send path of `updateStatus`: a sent payload means
the commit target was a truthy string, the slug was defined, and the
payload is the built one. -/
lemma updateStatus_sent_inv (env : Env) (report : Report) (d : Details)
    (h : updateStatus env report = .ok (.sent d)) :
    ∃ shaStr slug, getCommitTarget env env.TRAVIS_EVENT_TYPE = .ok (some shaStr) ∧
      shaStr ≠ [] ∧ env.TRAVIS_REPO_SLUG = some slug ∧
      d = buildDetails env slug shaStr report := by
  rw [updateStatus] at h
  cases hg : getCommitTarget env env.TRAVIS_EVENT_TYPE with
  | error e => rw [hg] at h; exact absurd h (by simp)
  | ok sha =>
    rw [hg] at h
    simp only at h
    cases sha with
    | none => simp [jsFalsy] at h
    | some s =>
      by_cases hs : s = []
      · rw [hs] at h
        simp [jsFalsy] at h
      · rw [if_neg (by simp [jsFalsy, hs])] at h
        cases hslug : env.TRAVIS_REPO_SLUG with
        | none => rw [hslug] at h; exact absurd h (by simp)
        | some slug =>
          rw [hslug] at h
          simp only [Except.ok.injEq, UpdateOutcome.sent.injEq] at h
          exact ⟨s, slug, rfl, hs, rfl, h.symm⟩

lemma getCommitTarget_pr_eq (env : Env) (range : JSStr) (h : env.TRAVIS_COMMIT_RANGE = some range) :
    getCommitTarget env (some ("pull_request".toList)) =
      (if (splitDots range).length = 1 then
        Except.ok (some range)
      else
        Except.ok (some ((splitDots range).getD 1 []))) := by
  rw [getCommitTarget]
  rw [if_neg (by decide), if_pos rfl, h]

/-- Interchange of the loop guard and the iteration in `printReport`:
appending the per-result output only of results passing a Boolean
guard equals filtering first. -/
lemma flatMap_ite_filter {α β : Type} (p : α → Bool) (f : α → List β) (l : List α) :
    (l.flatMap fun x => if p x then f x else []) = (l.filter p).flatMap f := by
  induction l with
  | nil => rfl
  | cons x xs ih =>
    by_cases h : p x <;> simp [h, ih]

/-! Claim theorems. -/

/-- Claim C1, corrected form. For a pull-request event: with no `...`
in the range, `getCommitTarget` returns the whole range (as the claim
states); with at least one `...` it returns element 1 of the split on
`...`; and when the delimiter occurs exactly once — the suffix after
the first occurrence contains no further `...` — that element equals
the substring after the delimiter, as the claim states. The original
claim fails when the delimiter occurs more than once; see the
counterexample. -/
theorem getCommitTarget_pullRequest (env : Env) (range : JSStr)
    (h : env.TRAVIS_COMMIT_RANGE = some range) :
    (suffixAfterDots range = none →
      getCommitTarget env (some ("pull_request".toList)) = .ok (some range)) ∧
    (suffixAfterDots range ≠ none →
      getCommitTarget env (some ("pull_request".toList)) = .ok (some ((splitDots range).getD 1 []))) ∧
    (∀ t, suffixAfterDots range = some t → suffixAfterDots t = none →
      (splitDots range).getD 1 [] = t) := by
  refine ⟨?_, ?_, ?_⟩
  · intro hn
    rw [getCommitTarget_pr_eq env range h, if_pos ((splitDots_length_one_iff range).2 hn)]
  · intro hn
    rw [getCommitTarget_pr_eq env range h, if_neg]
    intro hlen
    exact hn ((splitDots_length_one_iff range).1 hlen)
  · intro t ht htn
    exact splitDots_getD_one range t ht htn

/-- Claim C1, counterexample to the claim as stated: for the
pull-request range "a...b...c", `getCommitTarget` returns "b"
(element 1 of the split), while the substring of the range after the
`...` delimiter is "b...c". -/
theorem getCommitTarget_suffix_counterexample :
    getCommitTarget envC1 (some ("pull_request".toList)) = .ok (some ("b".toList)) ∧
    suffixAfterDots ("a...b...c".toList) = some ("b...c".toList) ∧
    ("b".toList : JSStr) ≠ "b...c".toList :=
  ⟨rfl, by decide, by decide⟩

/-- Claim C1, witness: on the single-delimiter range "a...b" the
amended theorem yields the substring "b" after the delimiter. -/
theorem getCommitTarget_pullRequest_witness :
    getCommitTarget envC1b (some ("pull_request".toList)) = .ok (some ("b".toList)) ∧
    (splitDots ("a...b".toList)).getD 1 [] = "b".toList := by
  have h := getCommitTarget_pullRequest envC1b ("a...b".toList) rfl
  have h2 := h.2.1 (by decide)
  have h3 := h.2.2 ("b".toList) (by decide) (by decide)
  rw [h3] at h2
  exact ⟨h2, h3⟩

/-- Claim C2: in every sent status payload the state is "success"
exactly when the report's error count is zero and "failure" exactly
when it is nonzero; two reports with the same error count yield the
same state regardless of their warning counts. -/
theorem updateStatus_state_iff (env : Env) (r1 r2 : Report) (d1 d2 : Details)
    (h1 : updateStatus env r1 = .ok (.sent d1))
    (h2 : updateStatus env r2 = .ok (.sent d2))
    (he : r1.errorCount = r2.errorCount) :
    (d1.state = "success".toList ↔ r1.errorCount = 0) ∧
    (d1.state = "failure".toList ↔ r1.errorCount ≠ 0) ∧
    d1.state = d2.state := by
  obtain ⟨s1, sl1, hg1, hs1, hsl1, hd1⟩ := updateStatus_sent_inv env r1 d1 h1
  obtain ⟨s2, sl2, hg2, hs2, hsl2, hd2⟩ := updateStatus_sent_inv env r2 d2 h2
  rw [hd1, hd2, buildDetails_state, buildDetails_state, ← he]
  by_cases h : r1.errorCount = 0
  · rw [if_pos h]
    exact ⟨by simp [h], by simp [h], rfl⟩
  · rw [if_neg h]
    exact ⟨by simp [h], by simp [h], rfl⟩

/-- Claim C2, witness: for a push environment, a report with zero
errors and five warnings gets state "success", and a report with zero
errors and zero warnings gets the same state. -/
theorem updateStatus_state_iff_witness :
    (detailsW5.state = "success".toList ↔ reportW5.errorCount = 0) ∧
    (detailsW5.state = "failure".toList ↔ reportW5.errorCount ≠ 0) ∧
    detailsW5.state = detailsW0.state :=
  updateStatus_state_iff envPush reportW5 reportW0 detailsW5 detailsW0 rfl rfl rfl

/-- Claim C3: for any event type that is neither "push" nor
"pull_request" (including an unset one), `updateStatus` takes the
skip branch, and the skip branch hands no payload to `sendToGitHub`. -/
theorem updateStatus_unsupported (env : Env) (report : Report)
    (h1 : env.TRAVIS_EVENT_TYPE ≠ some ("push".toList))
    (h2 : env.TRAVIS_EVENT_TYPE ≠ some ("pull_request".toList)) :
    updateStatus env report = .ok .skipped ∧ sentDetails UpdateOutcome.skipped = [] := by
  refine ⟨?_, rfl⟩
  rw [updateStatus, getCommitTarget, if_neg h1, if_neg h2]
  simp [jsFalsy]

/-- Claim C3, witness: an environment with event type "cron" skips. -/
theorem updateStatus_unsupported_witness :
    updateStatus envCron reportW5 = .ok .skipped ∧ sentDetails UpdateOutcome.skipped = [] :=
  updateStatus_unsupported envCron reportW5 (by decide) (by decide)

/-- Claim C4: for a push event, the sha in every sent payload is
exactly the value of `TRAVIS_COMMIT`, and `getCommitTarget` returns
that environment value unmodified. -/
theorem updateStatus_push (env : Env) (report : Report) (d : Details)
    (hev : env.TRAVIS_EVENT_TYPE = some ("push".toList))
    (h : updateStatus env report = .ok (.sent d)) :
    env.TRAVIS_COMMIT = some d.sha ∧
    getCommitTarget env env.TRAVIS_EVENT_TYPE = .ok env.TRAVIS_COMMIT := by
  have hgc : getCommitTarget env env.TRAVIS_EVENT_TYPE = .ok env.TRAVIS_COMMIT := by
    rw [hev, getCommitTarget, if_pos rfl]
  obtain ⟨s, slug, hg, hs, hslug, hd⟩ := updateStatus_sent_inv env report d h
  rw [hgc] at hg
  simp only [Except.ok.injEq] at hg
  refine ⟨?_, hgc⟩
  rw [hd, buildDetails_sha]
  exact hg

/-- Claim C4, witness: the concrete push environment sends the literal
commit "abc". -/
theorem updateStatus_push_witness :
    envPush.TRAVIS_COMMIT = some detailsW5.sha ∧
    getCommitTarget envPush envPush.TRAVIS_EVENT_TYPE = .ok envPush.TRAVIS_COMMIT :=
  updateStatus_push envPush reportW5 detailsW5 rfl rfl

/-- Claim C5: the footer prints exactly one line, and which of the
three messages it is follows the mutually exclusive conditions on
(errorCount, warningCount): errors present, warnings only, or no
issues. -/
theorem printReportFooter_cases (report : Report) :
    (printReportFooter report).length = 1 ∧
    (report.errorCount ≠ 0 →
      printReportFooter report =
        [natToJSStr (report.errorCount + report.warningCount) ++ " problems (".toList ++
         natToJSStr report.errorCount ++ " errors, ".toList ++
         natToJSStr report.warningCount ++ " warnings)".toList]) ∧
    (report.errorCount = 0 → report.warningCount ≠ 0 →
      printReportFooter report = [natToJSStr report.warningCount ++ " warnings".toList]) ∧
    (report.errorCount = 0 → report.warningCount = 0 →
      printReportFooter report = ["no lint issues!".toList]) := by
  by_cases he : report.errorCount = 0 <;> by_cases hw : report.warningCount = 0 <;>
    simp [printReportFooter, he, hw]

/-- Claim C5, witness: a report with two errors and one warning prints
the problems summary line. -/
theorem printReportFooter_cases_witness :
    printReportFooter reportE2W1 = ["3 problems (2 errors, 1 warnings)".toList] := by
  have h := (printReportFooter_cases reportE2W1).2.1 (by decide)
  rw [h]
  decide

/-- Claim C6: when a status is sent for a well-formed slug
"owner/repo", exactly one payload is handed to `sendToGitHub`, its
`user` field is the slug segment before the slash and its `repo` field
the segment after it. The `Details` structure is exactly the seven
fields of the constructed object literal. -/
theorem updateStatus_payload (env : Env) (report : Report) (d : Details) (a b : JSStr)
    (hslug : env.TRAVIS_REPO_SLUG = some (a ++ '/' :: b))
    (ha : '/' ∉ a) (hb : '/' ∉ b)
    (h : updateStatus env report = .ok (.sent d)) :
    sentDetails (.sent d) = [d] ∧ d.user = a ∧ d.repo = some b := by
  obtain ⟨s, slug, hg, hs, hslug2, hd⟩ := updateStatus_sent_inv env report d h
  rw [hslug] at hslug2
  injection hslug2 with hsl
  refine ⟨rfl, ?_, ?_⟩
  · rw [hd, buildDetails_user, ← hsl, splitSlash_pair a b ha hb]
    rfl
  · rw [hd, buildDetails_repo, ← hsl, splitSlash_pair a b ha hb]
    rfl

/-- Claim C6, witness: with slug "a/b" the sent payload has user "a"
and repo "b", and exactly one payload is sent. -/
theorem updateStatus_payload_witness :
    sentDetails (.sent detailsW5) = [detailsW5] ∧
    detailsW5.user = "a".toList ∧ detailsW5.repo = some ("b".toList) :=
  updateStatus_payload envPush reportW5 detailsW5 ("a".toList) ("b".toList) rfl
    (by decide) (by decide) rfl

/-- Claim C7: a pull-request event with `TRAVIS_COMMIT_RANGE` unset
throws (uncaught, so `updateStatus` neither sends nor skips), and any
run whose commit target is a truthy string but whose
`TRAVIS_REPO_SLUG` is unset also throws. Nothing in the script catches
these errors: the model propagates them as `Except.error`. (The
analogous propagation of network failures lives inside the external
GitHub client and is outside this embedding.) -/
theorem updateStatus_missing_env (env1 env2 : Env) (r1 r2 : Report) (s : JSStr)
    (h1ev : env1.TRAVIS_EVENT_TYPE = some ("pull_request".toList))
    (h1r : env1.TRAVIS_COMMIT_RANGE = none)
    (h2slug : env2.TRAVIS_REPO_SLUG = none)
    (h2sha : getCommitTarget env2 env2.TRAVIS_EVENT_TYPE = .ok (some s))
    (h2ne : s ≠ []) :
    updateStatus env1 r1 = .error () ∧ updateStatus env2 r2 = .error () := by
  constructor
  · rw [updateStatus, h1ev, getCommitTarget, if_neg (by decide), if_pos rfl, h1r]
  · cases s with
    | nil => exact absurd rfl h2ne
    | cons c cs =>
      rw [updateStatus, h2sha]
      simp [jsFalsy, h2slug]

/-- Claim C7, witness: a pull request without a commit range and a
push without a repository slug both crash. -/
theorem updateStatus_missing_env_witness :
    updateStatus envPRNoRange reportW5 = .error () ∧
    updateStatus envNoSlug reportW5 = .error () :=
  updateStatus_missing_env envPRNoRange envNoSlug reportW5 reportW5 ("abc".toList)
    rfl rfl rfl rfl (by decide)

/-- Claim C8: the bootstrap attaches exactly the static middleware,
then the JSON body parser, then the urlencoded body parser, in that
order and each once, then calls the HTTPS startup with the final app
and the configuration value and the redirect startup with the same
configuration value, in that order and each once. -/
theorem serverBootstrap_sequence {α : Type} (dirname : JSStr) (info : α) :
    serverBootstrap dirname info =
      (⟨[.staticFiles dirname ("../client".toList), .jsonParser ("10mb".toList),
         .urlencodedParser ("10mb".toList) true]⟩,
       [.httpsRun ⟨[.staticFiles dirname ("../client".toList), .jsonParser ("10mb".toList),
          .urlencodedParser ("10mb".toList) true]⟩ info,
        .redirectRunForHttps info]) := rfl

/-- Claim C9: `printReport` runs `printFileResult` exactly on the
results passing the nonzero-count guard, and for a well-formed result
(counts summing to the number of messages) that passes the guard the
messages list is non-empty, so `printFileResult` takes the
per-message branch, never the "no issues" branch. -/
theorem printReport_nonzero_only (report : Report) (r : FileResult)
    (hr : r ∈ report.results)
    (hnz : hasIssues r = true)
    (hwf : r.errorCount + r.warningCount = r.messages.length) :
    printReport report =
      ["-- begin ESLint report --\n".toList] ++
        (report.results.filter hasIssues).flatMap printFileResult ++
        printReportFooter report ∧
    r.messages ≠ [] ∧
    printFileResult r = [r.filePath] ++ r.messages.map formatMessage ++ [[]] := by
  have hmsg : r.messages ≠ [] := by
    intro hnil
    rw [hnil] at hwf
    simp at hwf
    rw [hasIssues, hwf.1, hwf.2] at hnz
    simp at hnz
  refine ⟨?_, hmsg, ?_⟩
  · rw [printReport, flatMap_ite_filter]
  · rw [printFileResult, if_neg (by simp [hmsg])]

/-- Claim C9, witness: a report with one file result holding one error
message prints that result through the per-message branch. -/
theorem printReport_nonzero_only_witness :
    printReport reportFW =
      ["-- begin ESLint report --\n".toList] ++
        (reportFW.results.filter hasIssues).flatMap printFileResult ++
        printReportFooter reportFW ∧
    fileResW.messages ≠ [] ∧
    printFileResult fileResW =
      [fileResW.filePath] ++ fileResW.messages.map formatMessage ++ [[]] :=
  printReport_nonzero_only reportFW fileResW (by decide) (by decide) (by decide)

/-- Claim C10: in every sent payload, the context is "ci/lint/pr" when
the event type is "pull_request" and "ci/lint/" followed by the event
type otherwise. -/
theorem updateStatus_context_label (env : Env) (report : Report) (d : Details) (e : JSStr)
    (hev : env.TRAVIS_EVENT_TYPE = some e)
    (h : updateStatus env report = .ok (.sent d)) :
    (e = "pull_request".toList → d.context = "ci/lint/pr".toList) ∧
    (e ≠ "pull_request".toList → d.context = "ci/lint/".toList ++ e) := by
  obtain ⟨s, slug, hg, hs, hslug, hd⟩ := updateStatus_sent_inv env report d h
  rw [hd, buildDetails_context, hev]
  constructor
  · intro hpr
    rw [hpr, if_pos rfl]
    decide
  · intro hne
    rw [if_neg (by simpa using hne), jsUndef]

/-- Claim C10, witness: the push environment's payload carries context
"ci/lint/push". -/
theorem updateStatus_context_label_witness :
    detailsW5.context = "ci/lint/".toList ++ "push".toList :=
  (updateStatus_context_label envPush reportW5 detailsW5 ("push".toList) rfl rfl).2
    (by decide)

end Absolute
